import Mathlib

/-!
Verification development for the signal-generation and trade-gating pipeline
of a leveraged-futures trading bot. Floating-point values of the source are
modelled as rationals; fallible operations return `Option` or `Except`.
-/

set_option autoImplicit false

namespace TradingBot

/-! ## Data model (src/utils/connect_ws.rs, src/math/get_indicators.rs) -/

/-- Live tick data received over the price feed (struct `PriceData`);
the numeric `last_price` field is the one consumed by the fusion engine. -/
structure PriceData where
  last_price : ℚ
  last_tick_direction : String
  time : ℤ
deriving DecidableEq, Repr

/-- Numeric indicator fields of struct `Indicators` (the raw history vectors
`ohlc_data`/`price_data`/`index_price_data` are carried along in the source but
never read by the fusion engine, so they are omitted here). -/
structure Indicators where
  ma : Option ℚ
  ema : Option ℚ
  bollinger_bands : Option (ℚ × ℚ × ℚ)
  rsi : Option ℚ
  i_ma : Option ℚ
  i_ema : Option ℚ
  i_bollinger_bands : Option (ℚ × ℚ × ℚ)
  i_rsi : Option ℚ
  atr : Option ℚ
  ohlc_ma : Option ℚ
  ohlc_ema : Option ℚ
  ohlc_bollinger_bands : Option (ℚ × ℚ × ℚ)
  ohlc_rsi : Option ℚ
deriving DecidableEq, Repr

/-- Discrete trading signal (enum `Signal` in src/math/get_signals.rs). -/
inductive Signal where
  | StrongSell
  | Sell
  | Hold
  | Buy
  | StrongBuy
  | Undefined
deriving DecidableEq, Repr

/-- Signal weights and gap value (struct `SignalSettings` in src/config.rs). -/
structure SignalSettings where
  bollinger_weight : ℚ
  rsi_weight : ℚ
  ma_ema_weight : ℚ
  atr_weight : ℚ
  gap_value : ℚ
deriving DecidableEq, Repr

/-- Constant settings returned by `load_signal_settings` (src/config.rs). -/
def load_signal_settings : SignalSettings :=
  { bollinger_weight := 0.25
    rsi_weight := 0.30
    ma_ema_weight := 0.20
    atr_weight := 0.25
    gap_value := 15 }

/-! ## Series math (src/math/price_indicators.rs) -/

/-- Moving average: mean of the last `period` elements
(`calculate_moving_average`). -/
def calculate_moving_average (prices : List ℚ) (period : ℕ) : Option ℚ :=
  if prices.length < period then none
  else some ((prices.drop (prices.length - period)).sum / period)

/-- Exponential moving average: seed is the mean of the first `period`
elements, then the smoothing recurrence is folded over the remaining elements
in arrival order (`calculate_exponential_moving_average`). -/
def calculate_exponential_moving_average (prices : List ℚ) (period : ℕ) :
    Option ℚ :=
  if prices.length < period then none
  else
    let smoothing : ℚ := 2 / ((period : ℚ) + 1)
    let seed : ℚ := (prices.take period).sum / period
    some ((prices.drop period).foldl
      (fun ema price => (price - ema) * smoothing + ema) seed)

/-- True-range sequence of `calculate_atr`: for each index `i` from 1 to
`highs.length - 1`, `max (high - low) (max |high - prevClose| |low - prevClose|)`.
Out-of-range accesses of the source (which would panic) read 0 here; the
theorems below only quantify over length configurations the source accepts. -/
def trueRanges (highs lows closes : List ℚ) : List ℚ :=
  (List.range (highs.length - 1)).map (fun k =>
    let i := k + 1
    let high_low := highs.getD i 0 - lows.getD i 0
    let high_close := |highs.getD i 0 - closes.getD (i - 1) 0|
    let low_close := |lows.getD i 0 - closes.getD (i - 1) 0|
    max high_low (max high_close low_close))

/-- Average true range (`calculate_atr`): mean of the first `period`
true-range values; `none` when an input series is shorter than `period` or
fewer than `period` true ranges exist. -/
def calculate_atr (highs lows closes : List ℚ) (period : ℕ) : Option ℚ :=
  if highs.length < period ∨ lows.length < period ∨ closes.length < period then
    none
  else
    let true_ranges := trueRanges highs lows closes
    if true_ranges.length < period then none
    else some ((true_ranges.take period).sum / period)

/-! ## Signal fusion engine (src/math/get_signals.rs) -/

/-- Input-validation predicate of `calculate_ohlc_with_price_signal`: the
early-return conditions checked before any scoring, in source order. -/
def invalidFusionInput (price_data : PriceData) (indicators : Indicators) :
    Bool :=
  (price_data.last_price ≤ 0) ||
  (match indicators.ohlc_bollinger_bands with
   | some (lower, middle, upper) => lower < 0 || middle < 0 || upper < 0
   | none => false) ||
  (match indicators.ohlc_rsi with
   | some rsi => rsi < 0 || rsi > 100
   | none => false) ||
  (match indicators.ohlc_ma with
   | some ma => ma < 0
   | none => false) ||
  (match indicators.ohlc_ema with
   | some ema => ema < 0
   | none => false) ||
  (match indicators.atr with
   | some atr => atr < 0
   | none => false)

/-- Bollinger contribution to the fused score. -/
def bollingerScore (s : SignalSettings) (price : ℚ)
    (bb : Option (ℚ × ℚ × ℚ)) : ℚ :=
  match bb with
  | none => 0
  | some (lower, _, upper) =>
    if price > upper + s.gap_value then s.bollinger_weight * (-2)
    else if price < lower - s.gap_value then s.bollinger_weight * 2
    else if price > upper then s.bollinger_weight * (-1)
    else if price < lower then s.bollinger_weight * 1
    else 0

/-- RSI contribution to the fused score. -/
def rsiScore (s : SignalSettings) (rsi : Option ℚ) : ℚ :=
  match rsi with
  | none => 0
  | some r =>
    if r > 80 then s.rsi_weight * (-2)
    else if r > 70 then s.rsi_weight * (-1)
    else if r < 20 then s.rsi_weight * 2
    else if r < 30 then s.rsi_weight * 1
    else 0

/-- MA/EMA contribution to the fused score; the source evaluates the moving
average and the exponential moving average with the identical band logic. -/
def maBandScore (s : SignalSettings) (price : ℚ) (value : Option ℚ) : ℚ :=
  match value with
  | none => 0
  | some v =>
    if price > v + s.gap_value then s.ma_ema_weight * (-2)
    else if price > v then s.ma_ema_weight * (-1)
    else if price < v - s.gap_value then s.ma_ema_weight * 2
    else if price < v then s.ma_ema_weight * 1
    else 0

/-- ATR contribution to the fused score. -/
def atrScore (s : SignalSettings) (price : ℚ) (atr : Option ℚ) : ℚ :=
  match atr with
  | none => 0
  | some a =>
    let high_volatility_threshold := price * 0.005
    let strong_buy_threshold := high_volatility_threshold * 1.5
    let strong_sell_threshold := high_volatility_threshold * 1.75
    if a > strong_sell_threshold ∧ price > a + strong_sell_threshold then
      s.atr_weight * (-2)
    else if a > strong_sell_threshold ∧ price < a - strong_buy_threshold then
      s.atr_weight * 2
    else if a > high_volatility_threshold ∧ price > a then
      s.atr_weight * (-1)
    else if a > high_volatility_threshold ∧ price < a then
      s.atr_weight * 1
    else 0

/-- Accumulated fusion score: the running `signal` variable after all five
indicator checks of `calculate_ohlc_with_price_signal`. -/
def totalScore (s : SignalSettings) (price_data : PriceData)
    (indicators : Indicators) : ℚ :=
  bollingerScore s price_data.last_price indicators.ohlc_bollinger_bands +
  rsiScore s indicators.ohlc_rsi +
  maBandScore s price_data.last_price indicators.ohlc_ma +
  maBandScore s price_data.last_price indicators.ohlc_ema +
  atrScore s price_data.last_price indicators.atr

/-- Final mapping of the accumulated score to an integer signal value
(the tail of `calculate_ohlc_with_price_signal`). -/
def finalSignalValue (signal : ℚ) : ℤ :=
  if signal ≥ 1.55 then 2
  else if signal > 0.2 then 1
  else if signal ≤ -1.55 then -2
  else if signal < -0.2 then -1
  else 0

/-- Signal fusion engine `calculate_ohlc_with_price_signal`: every failed
validation check returns 0 early; otherwise the weighted score is mapped to
an integer in -2..2. -/
def calculate_ohlc_with_price_signal (price_data : PriceData)
    (indicators : Indicators) : ℤ :=
  if invalidFusionInput price_data indicators then 0
  else finalSignalValue (totalScore load_signal_settings price_data indicators)

/-- Mapping from the integer signal value to the `Signal` enum, as matched in
the body of `get_signals`. -/
def signalOfValue (v : ℤ) : Signal :=
  if v = -2 then .StrongSell
  else if v = -1 then .Sell
  else if v = 0 then .Hold
  else if v = 1 then .Buy
  else if v = 2 then .StrongBuy
  else .Undefined

/-! ## Decision context merger (loop body of `get_signals`) -/

/-- Message type of the merger channel (struct `SignalData`): either slot may
be absent in a given message. -/
structure SignalData where
  price_data : Option PriceData
  indicators : Option Indicators
deriving DecidableEq, Repr

/-- Slot merge performed at the top of each `get_signals` iteration: a missing
slot of the incoming message is back-filled from the previously stored
`last_signal` when one exists. -/
def mergeSignalData (last : Option SignalData) (incoming : SignalData) :
    SignalData :=
  { price_data :=
      match incoming.price_data, last with
      | some p, _ => some p
      | none, some l => l.price_data
      | none, none => none
    indicators :=
      match incoming.indicators, last with
      | some i, _ => some i
      | none, some l => l.indicators
      | none, none => none }

/-- Fusion-and-send step of one `get_signals` iteration: a signal is emitted
only when both slots of the merged context are populated. -/
def fuseSignal (d : SignalData) : Option Signal :=
  match d.price_data, d.indicators with
  | some p, some i => some (signalOfValue (calculate_ohlc_with_price_signal p i))
  | _, _ => none

/-- Per-message outputs of the `get_signals` receive loop, starting from the
stored state `last` (the source starts from `none`): each incoming message is
merged into the context, the context is stored back, and the fusion result
(when any) is emitted. -/
def getSignalsOutputs : Option SignalData → List SignalData → List (Option Signal)
  | _, [] => []
  | last, m :: ms =>
    let updated := mergeSignalData last m
    fuseSignal updated :: getSignalsOutputs (some updated) ms

/-- Fold tracking the price slot across messages from a given starting
value. -/
def slotFoldP (acc : Option PriceData) (msgs : List SignalData) :
    Option PriceData :=
  msgs.foldl (fun a m =>
    match m.price_data with
    | some p => some p
    | none => a) acc

/-- Fold tracking the indicator slot across messages from a given starting
value. -/
def slotFoldI (acc : Option Indicators) (msgs : List SignalData) :
    Option Indicators :=
  msgs.foldl (fun a m =>
    match m.indicators with
    | some i => some i
    | none => a) acc

/-- Last populated value carried by the price slot across a message prefix. -/
def lastSomePrice (msgs : List SignalData) : Option PriceData :=
  slotFoldP none msgs

/-- Last populated value carried by the indicator slot across a message
prefix. -/
def lastSomeIndicators (msgs : List SignalData) : Option Indicators :=
  slotFoldI none msgs

/-- Modelled from the spec: merge-latest semantics — the fusion of the newest
populated value of each slot over a message prefix, or nothing while either
slot has never been populated. Spec-side comparison definition for the
merger loop. -/
def mergeLatestSpec (accP : Option PriceData) (accI : Option Indicators)
    (msgs : List SignalData) : Option Signal :=
  match slotFoldP accP msgs, slotFoldI accI msgs with
  | some p, some ind =>
    some (signalOfValue (calculate_ohlc_with_price_signal p ind))
  | _, _ => none

/-! ## Risk sizing (src/math/get_trade_quantity.rs,
src/math/get_stoploss_takeprofit.rs, src/utils/calculate_trade.rs) -/

/-- Market quantity limits (struct `MinMax` of src/futures/get_market.rs,
`trade` field unused by the sizing path). -/
structure MinMax where
  min : ℕ
  max : ℕ
deriving DecidableEq, Repr

/-- Open-trade count limit (struct `CountLimit`). -/
structure CountLimit where
  max : ℕ
deriving DecidableEq, Repr

/-- Market limits consumed by the core (struct `Limits`). -/
structure Limits where
  quantity : MinMax
  leverage : MinMax
  count : CountLimit
deriving DecidableEq, Repr

/-- One trading-fee tier (struct `TradingFeeTier`): minimum volume and fee
rate. -/
structure FeeTier where
  min_volume : ℕ
  fees : ℚ
deriving DecidableEq, Repr

/-- Futures market data consumed by sizing and the gate (struct
`FuturesMarket`; only the limits and trading-fee tiers are read). -/
structure FuturesMarket where
  limits : Limits
  trading_tiers : List FeeTier
deriving DecidableEq, Repr

/-- Trade quantity sizing `calculate_trade_quantity`: fails closed without a
positive ATR, otherwise converts the satoshi balance at the entry price,
applies the per-trade risk budget, leverage and the inverse-ATR volatility
factor, and clamps into the market quantity limits. -/
def calculate_trade_quantity (balance_sats : ℕ) (entry_price : ℚ)
    (risk_per_trade_percent : ℚ) (max_trades : ℕ) (leverage : ℚ)
    (atr : Option ℚ) (market_data : FuturesMarket) : Except String ℚ :=
  match atr with
  | some atr_value =>
    if atr_value > 0 then
      let volatility_factor := 1 / atr_value
      let balance_usd := (balance_sats : ℚ) * entry_price / 100000000
      let max_quantity_per_trade :=
        balance_usd * risk_per_trade_percent / (max_trades : ℚ)
      let leverage_adjusted_quantity := max_quantity_per_trade * leverage
      let adjusted_quantity := leverage_adjusted_quantity * volatility_factor
      let final_quantity :=
        Max.max (Min.min adjusted_quantity (market_data.limits.quantity.max : ℚ))
          (market_data.limits.quantity.min : ℚ)
      .ok final_quantity
    else .error "ATR is required for the trade."
  | none => .error "ATR is required for the trade."

/-- Stop-loss and take-profit levels `calculate_stoploss_takeprofit`; the
result pair is (takeprofit, stoploss), as returned by the source. -/
def calculate_stoploss_takeprofit (entry_price atr_value leverage : ℚ)
    (is_buy : Bool) (riskToReward riskToLoss : ℚ) : Except String (ℚ × ℚ) :=
  if atr_value ≤ 0 then .error "ATR value must be greater than 0."
  else
    let distance := atr_value * leverage
    let stoploss_distance := distance * riskToLoss
    let takeprofit_distance := distance * riskToReward
    let stoploss :=
      if is_buy then entry_price - stoploss_distance
      else entry_price + stoploss_distance
    let takeprofit :=
      if is_buy then entry_price + takeprofit_distance
      else entry_price - takeprofit_distance
    .ok (takeprofit, stoploss)

/-- Derived per-trade parameters (struct `TradeParams`). -/
structure TradeParams where
  margin_sats : ℚ
  liquidation_price : ℚ
  trade_quantity : ℚ
  maintenance_margin : ℚ
deriving DecidableEq, Repr

/-- Truncating cast from a float to u64 as used by the source (`as u64`);
saturates below at 0. -/
def ratToU64 (x : ℚ) : ℕ := (Int.floor x).toNat

/-- Margin, liquidation price and maintenance margin `calculate_trade_params`:
margin is floored to the smallest base unit, the fee tier is the
highest-volume tier whose minimum volume does not exceed the margin. -/
def calculate_trade_params (trade_type : String) (entry_price : ℚ)
    (leverage : ℕ) (trade_quantity : ℚ) (market_data : FuturesMarket) :
    Except String TradeParams :=
  let margin_raw := trade_quantity / (entry_price * (leverage : ℚ))
  let margin := (Int.floor (margin_raw * 100000000) : ℚ) / 100000000
  let margin_sats := margin * 100000000
  match market_data.trading_tiers.reverse.find?
      (fun tier => ratToU64 margin_sats ≥ tier.min_volume) with
  | none => .error "No matching fee tier found"
  | some tier =>
    let trading_fee_rate := tier.fees
    if trade_type = "b" then
      let inverse_liquidation := 1 / entry_price + margin / trade_quantity
      let liquidation_price := 1 / inverse_liquidation
      let opening_fee_reserved := trade_quantity / entry_price * trading_fee_rate
      let closing_fee_reserved :=
        trade_quantity / liquidation_price * trading_fee_rate
      let maintenance_margin :=
        (Int.floor ((opening_fee_reserved + closing_fee_reserved) * 100000000) : ℚ)
      .ok ⟨margin_sats, liquidation_price, trade_quantity, maintenance_margin⟩
    else if trade_type = "s" then
      let inverse_liquidation := 1 / entry_price - margin / trade_quantity
      let liquidation_price := 1 / inverse_liquidation
      let opening_fee_reserved := trade_quantity / entry_price * trading_fee_rate
      let closing_fee_reserved :=
        trade_quantity / liquidation_price * trading_fee_rate
      let maintenance_margin :=
        (Int.floor ((opening_fee_reserved + closing_fee_reserved) * 100000000) : ℚ)
      .ok ⟨margin_sats, liquidation_price, trade_quantity, maintenance_margin⟩
    else .error "Invalid trade type, expected 'b' for Buy or 's' for Sell"

/-! ## Trade gate (src/math/create_trade_from_signal.rs) -/

/-- Result of one gate evaluation (enum `CreateTradeResult`). -/
inductive CreateTradeResult where
  | TradeCreated
  | NoTradeCreated (reason : String)
deriving DecidableEq, Repr

instance exceptDecEq {ε α : Type} [DecidableEq ε] [DecidableEq α] :
    DecidableEq (Except ε α) := fun x y =>
  match x, y with
  | .ok a, .ok b => decidable_of_iff (a = b) (by simp)
  | .error e, .error f => decidable_of_iff (e = f) (by simp)
  | .ok _, .error _ => isFalse (by simp)
  | .error _, .ok _ => isFalse (by simp)

/-- Environment of one `create_trade_from_signal` call: its arguments plus the
results its collaborators (get_trades, get_user, get_futures_ticker, order
placement) return during the call. -/
structure GateEnv where
  signal : Signal
  market : FuturesMarket
  leverage : Option ℕ
  activeTrades : Except String ℕ
  balance : Except String ℚ
  ticker : Except String (ℚ × ℚ)
  atr : Option ℚ
  riskPerTradePercent : ℚ
  riskToReward : ℚ
  riskToLoss : ℚ
  orderResult : Except String Unit
deriving DecidableEq, Repr

/-- Entry price and trade-type selection of `create_trade_from_signal`: the
first match on the signal, which exits early for Hold, and whose catch-all
arm (hit by Undefined) exits with "No valid trading signal". -/
def entryAndType (signal : Signal) (ask_price bid_price : ℚ) :
    Except CreateTradeResult (ℚ × String) :=
  match signal with
  | .Buy | .StrongBuy => .ok (ask_price, "b")
  | .Sell | .StrongSell => .ok (bid_price, "s")
  | .Hold => .error (.NoTradeCreated "Hold signal received on create_trade")
  | .Undefined => .error (.NoTradeCreated "No valid trading signal")

/-- Trade gate `create_trade_from_signal`, translated in source order: fetch
active trades (fetch failure is a structured no-trade), check the open-trade
count against the market limit, fetch user and ticker (failures are errors),
resolve the trade direction (Hold/Undefined exit with a structured no-trade),
size the quantity, compute stop/target and trade parameters (failures are
errors), check the balance against the margin, then place the order. -/
def create_trade_from_signal (env : GateEnv) : Except String CreateTradeResult :=
  let leverage := env.leverage.getD 20
  let max_trades := env.market.limits.count.max
  match env.activeTrades with
  | .error e => .ok (.NoTradeCreated ("Error fetching active trades: " ++ e))
  | .ok active_trades =>
  if active_trades ≥ max_trades then .ok (.NoTradeCreated "Trade limit reached")
  else
  match env.balance with
  | .error e => .error ("Error fetching user data: " ++ e)
  | .ok balance =>
  match env.ticker with
  | .error e => .error ("Error fetching futures ticker: " ++ e)
  | .ok (ask_price, bid_price) =>
  match entryAndType env.signal ask_price bid_price with
  | .error result => .ok result
  | .ok (entry_p, trade_type) =>
  match calculate_trade_quantity (ratToU64 balance) entry_p
      env.riskPerTradePercent max_trades (leverage : ℚ) env.atr env.market with
  | .error e => .error ("Error calculating trade quantity: " ++ e)
  | .ok final_quantity =>
  let quantity := ratToU64 final_quantity
  match calculate_stoploss_takeprofit entry_p (env.atr.getD 0) (leverage : ℚ)
      (trade_type = "b") env.riskToReward env.riskToLoss with
  | .error e => .error ("Error calculating stoploss/takeprofit: " ++ e)
  | .ok _tpsl =>
  match calculate_trade_params trade_type entry_p leverage (quantity : ℚ)
      env.market with
  | .error e => .error ("Error calculating trade parameters: " ++ e)
  | .ok trade_params =>
  match env.signal with
  | .Buy | .StrongBuy =>
    if balance ≤ trade_params.margin_sats then
      .ok (.NoTradeCreated "Insufficient balance for creating a trade")
    else
      match env.orderResult with
      | .error e => .error ("Error creating buy order: " ++ e)
      | .ok _ => .ok .TradeCreated
  | .Sell | .StrongSell =>
    if balance ≤ trade_params.margin_sats then
      .ok (.NoTradeCreated "Insufficient balance for creating a trade")
    else
      match env.orderResult with
      | .error e => .error ("Error creating sell order: " ++ e)
      | .ok _ => .ok .TradeCreated
  | .Hold => .ok (.NoTradeCreated "Hold signal received on create_trade")
  | .Undefined =>
    .ok (.NoTradeCreated "Undefined signal received on create_trade")

/-! ## Signal-processing loop (src/utils/process_signals.rs) -/

/-- One iteration of the `process_signals` receive loop, viewed from the
mutable `last_trade_time` state: `time` is the instant of the iteration and
`env` the gate environment of the `create_trade_from_signal` call it would
spawn. -/
structure Cycle where
  time : ℚ
  env : GateEnv
deriving DecidableEq, Repr

/-- State transition and output of one `process_signals` iteration: when the
elapsed time since `last_trade_time` reaches the configured gap, the timestamp
is reset to the current instant and the gate is invoked; otherwise the cycle
is skipped with no gate call. -/
def processStep (trade_gap_seconds : ℕ) (last_trade_time : ℚ) (c : Cycle) :
    ℚ × Option (Except String CreateTradeResult) :=
  if c.time - last_trade_time ≥ (trade_gap_seconds : ℚ) then
    (c.time, some (create_trade_from_signal c.env))
  else (last_trade_time, none)

/-- Per-cycle outputs of the `process_signals` loop (`none` marks a skipped
cycle). -/
def processOutputs (g : ℕ) : ℚ → List Cycle → List (Option (Except String CreateTradeResult))
  | _, [] => []
  | last, c :: cs =>
    (processStep g last c).2 :: processOutputs g (processStep g last c).1 cs

/-- Value of `last_trade_time` after processing a list of cycles. -/
def lastTimeAfter (g : ℕ) (last : ℚ) (cs : List Cycle) : ℚ :=
  cs.foldl (fun l c => (processStep g l c).1) last

/-- Value of `last_trade_time` immediately before cycle `n` of a trace. -/
def stateAt (g : ℕ) (t0 : ℚ) (cs : List Cycle) (n : ℕ) : ℚ :=
  lastTimeAfter g t0 (cs.take n)

/-! ## Gate order as the specification words it (for comparison) -/

/-- Outcome of a gate evaluation in the order the specification claims. -/
inductive ClaimGateOutcome where
  | silentNoAction
  | rejected (reason : String)
  | approved
deriving DecidableEq, Repr

/-- Modelled from the spec: gate conditions evaluated in the order the
specification states — (1) signal directionality, with Hold/Undefined passing
silently with no action, (2) open-position count below the market maximum,
(3) elapsed time at least the configured gap, (4) balance strictly above the
required margin — the first failing condition short-circuiting with a
structured reason. Used only to compare the claimed order against the source
order. -/
def gateClaimOrder (signal : Signal) (activeCount maxTrades : ℕ)
    (elapsedOk : Bool) (balance margin : ℚ) : ClaimGateOutcome :=
  if signal = .Hold ∨ signal = .Undefined then .silentNoAction
  else if maxTrades ≤ activeCount then .rejected "Trade limit reached"
  else if elapsedOk = false then .rejected "Trade gap not elapsed"
  else if balance ≤ margin then
    .rejected "Insufficient balance for creating a trade"
  else .approved

/-! ## Concrete sample data used by witnesses and counterexamples -/

/-- Tick of the StrongBuy scenario of the specification. -/
def pdScenario : PriceData := ⟨95000, "PlusTick", 0⟩

/-- Indicator snapshot of the StrongBuy scenario of the specification. -/
def indScenario : Indicators :=
  { ma := none, ema := none, bollinger_bands := none, rsi := none
    i_ma := none, i_ema := none, i_bollinger_bands := none, i_rsi := none
    atr := some 30
    ohlc_ma := some 98500, ohlc_ema := some 98800
    ohlc_bollinger_bands := some (97000, 98000, 99000)
    ohlc_rsi := some 10 }

/-- Tick with a non-positive price, failing fusion input validation. -/
def pdNeg : PriceData := ⟨-1, "MinusTick", 0⟩

/-- Indicator snapshot whose present fields are all invalid. -/
def indInvalid : Indicators :=
  { ma := none, ema := none, bollinger_bands := none, rsi := none
    i_ma := none, i_ema := none, i_bollinger_bands := none, i_rsi := none
    atr := some (-1)
    ohlc_ma := some (-1), ohlc_ema := some (-1)
    ohlc_bollinger_bands := some (-1, -1, -1)
    ohlc_rsi := some (-1) }

/-- Merger message carrying the invalid pair. -/
def msgInvalid : SignalData := ⟨some pdNeg, some indInvalid⟩

/-- Two-message merger trace: first the price slot, then the indicator
slot. -/
def msgsPair : List SignalData :=
  [⟨some pdScenario, none⟩, ⟨none, some indScenario⟩]

/-- Market data sample: quantity limits [1, 1000000], at most 5 open trades,
a single trading-fee tier. -/
def sampleMarket : FuturesMarket :=
  { limits :=
      { quantity := ⟨1, 1000000⟩, leverage := ⟨1, 100⟩, count := ⟨5⟩ }
    trading_tiers := [⟨0, 1/1000⟩] }

/-- Market data sample allowing at most one open trade. -/
def limitMarket : FuturesMarket :=
  { limits :=
      { quantity := ⟨1, 1000000⟩, leverage := ⟨1, 100⟩, count := ⟨1⟩ }
    trading_tiers := [⟨0, 1/1000⟩] }

/-- Gate environment with a Hold signal and all collaborators healthy. -/
def envHold : GateEnv :=
  { signal := .Hold, market := sampleMarket, leverage := none
    activeTrades := .ok 0, balance := .ok 100000000
    ticker := .ok (100000, 99990), atr := some 30
    riskPerTradePercent := 0.01, riskToReward := 0.8, riskToLoss := 0.75
    orderResult := .ok () }

/-- Gate environment with a Hold signal and the trade-count limit already
reached. -/
def envTradeLimit : GateEnv :=
  { envHold with market := limitMarket, activeTrades := .ok 1 }

/-- Gate environment with a directional signal but no ATR available. -/
def envAtrMissing : GateEnv :=
  { envHold with signal := .Buy, atr := none }

/-- Gate environment in which every gate condition passes. -/
def envFullPass : GateEnv :=
  { envHold with signal := .Buy }

/-- Skipped-versus-updated cycle sample: a Hold-signal cycle at instant 10. -/
def cycHold : Cycle := ⟨10, envHold⟩

/-- Trace of two full-pass cycles at instants 10 and 20. -/
def csFullPass : List Cycle := [⟨10, envFullPass⟩, ⟨20, envFullPass⟩]

/-! ## Theorems -/

/-- Helper: the true-range sequence has one element fewer than the high
series (one true range per consecutive pair). -/
lemma trueRanges_length (highs lows closes : List ℚ) :
    (trueRanges highs lows closes).length = highs.length - 1 := by
  simp [trueRanges]

/-- C10: on a series whose length is exactly the period, the exponential
moving average applies its smoothing recurrence zero times and coincides with
the moving average — both are the arithmetic mean of the whole series. -/
theorem ema_eq_ma_on_exact_window (prices : List ℚ) (period : ℕ)
    (hlen : prices.length = period) (hpos : 0 < period) :
    calculate_exponential_moving_average prices period =
      calculate_moving_average prices period := by
  subst hlen
  simp [calculate_exponential_moving_average, calculate_moving_average]

/-- Witness for C10 at the concrete series [1, 2] with period 2. -/
theorem ema_eq_ma_on_exact_window_witness :
    calculate_exponential_moving_average [(1 : ℚ), 2] 2 =
      calculate_moving_average [(1 : ℚ), 2] 2 :=
  ema_eq_ma_on_exact_window [(1 : ℚ), 2] 2 (by decide) (by decide)

/-- Counterexample to C5: all three input series have at least `period = 1`
elements, yet `calculate_atr` returns `none`, because only
`highs.length - 1` true ranges exist and the source demands `period` of
them. -/
theorem calculate_atr_defined_claim_false :
    1 ≤ ([(1 : ℚ)]).length ∧
    calculate_atr [(1 : ℚ)] [(1 : ℚ)] [(1 : ℚ)] 1 = none := by decide

/-- C5 (amended): for equally long input series and a positive period,
`calculate_atr` returns the mean of the first `period` true-range values
exactly when the series have at least `period + 1` elements, and `none`
otherwise (insufficient series or insufficient true ranges). -/
theorem calculate_atr_characterization (highs lows closes : List ℚ)
    (period : ℕ) (hl : lows.length = highs.length)
    (hc : closes.length = highs.length) (hpos : 0 < period) :
    calculate_atr highs lows closes period =
      if period + 1 ≤ highs.length then
        some (((trueRanges highs lows closes).take period).sum / period)
      else none := by
  have hTR := trueRanges_length highs lows closes
  simp only [calculate_atr]
  rw [hTR]
  by_cases hbig : period + 1 ≤ highs.length
  · rw [if_neg (by omega), if_neg (by omega), if_pos hbig]
  · rw [if_neg hbig]
    by_cases hlt : highs.length < period
    · rw [if_pos (Or.inl hlt)]
    · rw [if_neg (by omega), if_pos (by omega)]

/-- Witness for the amended C5 at series of length 2 with period 1. -/
theorem calculate_atr_characterization_witness :
    calculate_atr [(1 : ℚ), 2] [(0 : ℚ), 1] [(1 : ℚ), 1] 1 = some 1 := by
  have h := calculate_atr_characterization [(1 : ℚ), 2] [(0 : ℚ), 1]
    [(1 : ℚ), 1] 1 (by decide) (by decide) (by decide)
  rw [h]
  norm_num [trueRanges, List.range_succ, max_def]

/-- C8: with the default settings, the StrongBuy scenario of the
specification (price 95000, bollinger (97000, 98000, 99000), rsi 10,
ma 98500, ema 98800, atr 30) accumulates a score of at least 1.55 and fuses
to StrongBuy. -/
theorem strong_buy_scenario :
    totalScore load_signal_settings pdScenario indScenario ≥ 1.55 ∧
    calculate_ohlc_with_price_signal pdScenario indScenario = 2 ∧
    signalOfValue (calculate_ohlc_with_price_signal pdScenario indScenario) =
      .StrongBuy := by
  norm_num [totalScore, load_signal_settings, pdScenario, indScenario,
    bollingerScore, rsiScore, maBandScore, atrScore,
    calculate_ohlc_with_price_signal, invalidFusionInput, finalSignalValue,
    signalOfValue]

/-- Counterexample to C1: on a tick with non-positive price (a validation
failure) the fusion engine returns 0 and the loop delivers Hold, not
Undefined. -/
theorem validation_failure_not_undefined :
    invalidFusionInput pdNeg indInvalid = true ∧
    getSignalsOutputs none [msgInvalid] = [some .Hold] ∧
    Signal.Hold ≠ Signal.Undefined := by
  refine ⟨by norm_num [invalidFusionInput, pdNeg, indInvalid], ?_, by simp⟩
  norm_num [getSignalsOutputs, msgInvalid, mergeSignalData, fuseSignal,
    calculate_ohlc_with_price_signal, invalidFusionInput, pdNeg, indInvalid,
    signalOfValue]

/-- C1 (amended): every fusion input validation failure makes
`calculate_ohlc_with_price_signal` return 0, and the signal delivered
downstream for such a pair is Hold. -/
theorem validation_failure_yields_hold (pd : PriceData) (ind : Indicators)
    (h : invalidFusionInput pd ind = true) :
    calculate_ohlc_with_price_signal pd ind = 0 ∧
    fuseSignal ⟨some pd, some ind⟩ = some .Hold := by
  refine ⟨by simp [calculate_ohlc_with_price_signal, h], ?_⟩
  norm_num [fuseSignal, calculate_ohlc_with_price_signal, h, signalOfValue]

/-- Witness for the amended C1 at the invalid concrete pair. -/
theorem validation_failure_yields_hold_witness :
    calculate_ohlc_with_price_signal pdNeg indInvalid = 0 ∧
    fuseSignal ⟨some pdNeg, some indInvalid⟩ = some .Hold :=
  validation_failure_yields_hold pdNeg indInvalid
    (by norm_num [invalidFusionInput, pdNeg, indInvalid])

/-- C6: `calculate_trade_quantity` fails with "ATR is required for the
trade." exactly when the ATR is absent or non-positive; with a positive ATR
and consistent market limits it returns the risk-budgeted, leverage- and
volatility-adjusted quantity clamped into the market quantity range. -/
theorem calculate_trade_quantity_spec (balance_sats : ℕ)
    (entry_price risk_pct leverage : ℚ) (max_trades : ℕ) (atr : Option ℚ)
    (market : FuturesMarket) :
    ((atr = none ∨ ∃ a, atr = some a ∧ a ≤ 0) ↔
      calculate_trade_quantity balance_sats entry_price risk_pct max_trades
        leverage atr market = .error "ATR is required for the trade.") ∧
    (∀ a, atr = some a → 0 < a →
      (market.limits.quantity.min : ℚ) ≤ (market.limits.quantity.max : ℚ) →
      ∃ q, calculate_trade_quantity balance_sats entry_price risk_pct
          max_trades leverage atr market = .ok q ∧
        (market.limits.quantity.min : ℚ) ≤ q ∧
        q ≤ (market.limits.quantity.max : ℚ) ∧
        q = Max.max (Min.min ((((balance_sats : ℚ) * entry_price / 100000000) *
              risk_pct / (max_trades : ℚ)) * leverage * (1 / a))
            (market.limits.quantity.max : ℚ))
          (market.limits.quantity.min : ℚ)) := by
  constructor
  · match atr with
    | none => simp [calculate_trade_quantity]
    | some a =>
      by_cases ha : (0 : ℚ) < a
      · simp [calculate_trade_quantity, ha, ha.not_le]
      · simp [calculate_trade_quantity, ha, not_lt.mp ha]
  · intro a ha hpos hmm
    subst ha
    refine ⟨_, by simp [calculate_trade_quantity, hpos], le_max_right _ _,
      max_le (min_le_right _ _) hmm, rfl⟩

/-- Witness for C6: 1 BTC of balance at entry 100000 with 1 percent risk,
5 max trades, leverage 20 and ATR 30 yields an in-range quantity. -/
theorem calculate_trade_quantity_spec_witness :
    ∃ q, calculate_trade_quantity 100000000 100000 (1/100) 5 20 (some 30)
        sampleMarket = .ok q ∧
      (1 : ℚ) ≤ q ∧ q ≤ 1000000 := by
  obtain ⟨q, hq, hmin, hmax, -⟩ :=
    (calculate_trade_quantity_spec 100000000 100000 (1/100) 20 5 (some 30)
      sampleMarket).2 30 rfl (by norm_num) (by norm_num [sampleMarket])
  refine ⟨q, hq, ?_, ?_⟩
  · simpa [sampleMarket] using hmin
  · simpa [sampleMarket] using hmax

/-- Helper: consuming one message moves the merge-latest reference point to
the merged context. -/
lemma mergeLatestSpec_cons (last m : SignalData) (t : List SignalData) :
    mergeLatestSpec last.price_data last.indicators (m :: t) =
      mergeLatestSpec (mergeSignalData (some last) m).price_data
        (mergeSignalData (some last) m).indicators t := by
  cases hm : m.price_data <;> cases hn : m.indicators <;>
    simp [mergeLatestSpec, slotFoldP, slotFoldI, mergeSignalData, hm, hn]

/-- Helper: consuming one message from the empty initial context. -/
lemma mergeLatestSpec_cons_none (m : SignalData) (t : List SignalData) :
    mergeLatestSpec none none (m :: t) =
      mergeLatestSpec (mergeSignalData none m).price_data
        (mergeSignalData none m).indicators t := by
  cases hm : m.price_data <;> cases hn : m.indicators <;>
    simp [mergeLatestSpec, slotFoldP, slotFoldI, mergeSignalData, hm, hn]

/-- Helper: one loop step emits exactly the merge-latest fusion of the
single-message prefix relative to the stored context. -/
lemma fuseSignal_merge (last m : SignalData) :
    fuseSignal (mergeSignalData (some last) m) =
      mergeLatestSpec last.price_data last.indicators [m] := by
  cases hm : m.price_data <;> cases hn : m.indicators <;>
    cases hlp : last.price_data <;> cases hli : last.indicators <;>
      simp [fuseSignal, mergeSignalData, mergeLatestSpec, slotFoldP,
        slotFoldI, hm, hn, hlp, hli]

/-- Helper: the first loop step from the empty context. -/
lemma fuseSignal_merge_none (m : SignalData) :
    fuseSignal (mergeSignalData none m) = mergeLatestSpec none none [m] := by
  cases hm : m.price_data <;> cases hn : m.indicators <;>
    simp [fuseSignal, mergeSignalData, mergeLatestSpec, slotFoldP,
      slotFoldI, hm, hn]

/-- Helper: a state invariant of the `get_signals` loop — starting from a
stored context `l`, the output at position `i` is the merge-latest fusion of
the prefix of length `i + 1`. -/
lemma getSignalsOutputs_some_charac (msgs : List SignalData) :
    ∀ (l : SignalData) (i : ℕ), i < msgs.length →
    (getSignalsOutputs (some l) msgs).getD i none =
      mergeLatestSpec l.price_data l.indicators (msgs.take (i + 1)) := by
  induction msgs with
  | nil => intro l i hi; simp at hi
  | cons m ms ih =>
    intro l i hi
    match i with
    | 0 =>
      simp only [getSignalsOutputs, List.getD_cons_zero, List.take_succ_cons,
        List.take_zero]
      exact fuseSignal_merge l m
    | Nat.succ k =>
      have hk : k < ms.length := by simpa using hi
      simp only [getSignalsOutputs, List.getD_cons_succ, List.take_succ_cons]
      rw [ih (mergeSignalData (some l) m) k hk, ← mergeLatestSpec_cons]

/-- C7: each message of the merger loop produces exactly one output slot; it
carries a fused signal exactly when both slots have been populated within the
prefix up to and including that message (`mergeLatestSpec` returns none
before that), and the fused pair is always the newest populated value of each
slot — merge-latest semantics. -/
theorem getSignals_merge_latest (msgs : List SignalData) (i : ℕ)
    (hi : i < msgs.length) :
    (getSignalsOutputs none msgs).getD i none =
      mergeLatestSpec none none (msgs.take (i + 1)) := by
  match msgs, i with
  | m :: ms, 0 =>
    simp only [getSignalsOutputs, List.getD_cons_zero, List.take_succ_cons,
      List.take_zero]
    exact fuseSignal_merge_none m
  | m :: ms, Nat.succ k =>
    have hk : k < ms.length := by simpa using hi
    simp only [getSignalsOutputs, List.getD_cons_succ, List.take_succ_cons]
    rw [getSignalsOutputs_some_charac ms (mergeSignalData none m) k hk,
      ← mergeLatestSpec_cons_none]

/-- Witness for C7: on a trace that populates the price slot first and the
indicator slot second, the second message fuses the two latest values. -/
theorem getSignals_merge_latest_witness :
    (getSignalsOutputs none msgsPair).getD 1 none = some Signal.StrongBuy := by
  have h := getSignals_merge_latest msgsPair 1 (by decide)
  rw [h]
  norm_num [msgsPair, mergeLatestSpec, slotFoldP, slotFoldI,
    totalScore, load_signal_settings, pdScenario, indScenario,
    bollingerScore, rsiScore, maBandScore, atrScore,
    calculate_ohlc_with_price_signal, invalidFusionInput, finalSignalValue,
    signalOfValue]

/-- Helper: the final score mapping only ever produces one of the five
integer signal values. -/
lemma finalSignalValue_mem (q : ℚ) :
    finalSignalValue q = -2 ∨ finalSignalValue q = -1 ∨
    finalSignalValue q = 0 ∨ finalSignalValue q = 1 ∨ finalSignalValue q = 2 := by
  unfold finalSignalValue
  split_ifs <;> simp

/-- Helper: the fusion engine only ever produces one of the five integer
signal values. -/
lemma calculate_ohlc_mem (pd : PriceData) (ind : Indicators) :
    calculate_ohlc_with_price_signal pd ind = -2 ∨
    calculate_ohlc_with_price_signal pd ind = -1 ∨
    calculate_ohlc_with_price_signal pd ind = 0 ∨
    calculate_ohlc_with_price_signal pd ind = 1 ∨
    calculate_ohlc_with_price_signal pd ind = 2 := by
  unfold calculate_ohlc_with_price_signal
  split_ifs
  · simp
  · exact finalSignalValue_mem _

/-- Helper: mapping any of the five in-range values never yields
Undefined. -/
lemma signalOfValue_ne_undefined (v : ℤ)
    (h : v = -2 ∨ v = -1 ∨ v = 0 ∨ v = 1 ∨ v = 2) :
    signalOfValue v ≠ .Undefined := by
  rcases h with h | h | h | h | h <;> subst h <;> decide

/-- Helper: no state of the merger loop ever emits Undefined. -/
lemma getSignalsOutputs_no_undefined (msgs : List SignalData) :
    ∀ (st : Option SignalData) (s : Signal),
      some s ∈ getSignalsOutputs st msgs → s ≠ .Undefined := by
  induction msgs with
  | nil => intro st s h; simp [getSignalsOutputs] at h
  | cons m ms ih =>
    intro st s h
    rcases List.mem_cons.mp h with h1 | h1
    · rcases hp : (mergeSignalData st m).price_data with _ | p <;>
        rcases hq : (mergeSignalData st m).indicators with _ | ind <;>
          simp only [getSignalsOutputs, fuseSignal, hp, hq] at h1
      · exact absurd h1 (by simp)
      · exact absurd h1 (by simp)
      · exact absurd h1 (by simp)
      · cases h1
        exact signalOfValue_ne_undefined _ (calculate_ohlc_mem p ind)
    · exact ih (some (mergeSignalData st m)) s h1

/-- C9: the fusion engine always returns a value in -2..2, so the Undefined
arm of the signal mapping is dead and the merger loop never emits
Undefined. -/
theorem fusion_in_range_never_undefined :
    (∀ (pd : PriceData) (ind : Indicators),
      calculate_ohlc_with_price_signal pd ind = -2 ∨
      calculate_ohlc_with_price_signal pd ind = -1 ∨
      calculate_ohlc_with_price_signal pd ind = 0 ∨
      calculate_ohlc_with_price_signal pd ind = 1 ∨
      calculate_ohlc_with_price_signal pd ind = 2) ∧
    (∀ (msgs : List SignalData) (s : Signal),
      some s ∈ getSignalsOutputs none msgs → s ≠ .Undefined) :=
  ⟨calculate_ohlc_mem,
    fun msgs s h => getSignalsOutputs_no_undefined msgs none s h⟩

/-- Witness for C9 on the single-message trace that emits Hold. -/
theorem fusion_in_range_never_undefined_witness :
    Signal.Hold ≠ Signal.Undefined :=
  fusion_in_range_never_undefined.2 [msgInvalid] .Hold
    (by norm_num [getSignalsOutputs, msgInvalid, mergeSignalData, fuseSignal,
      calculate_ohlc_with_price_signal, invalidFusionInput, pdNeg, indInvalid,
      signalOfValue])

/-- Helper: the u64 truncation of the sized quantity 400/3. -/
lemma ratToU64_400_3 : ratToU64 ((400 : ℚ)/3) = 133 := by
  rw [ratToU64,
    show (⌊(400:ℚ)/3⌋:ℤ) = 133 from by rw [Int.floor_eq_iff]; norm_num]
  rfl

/-- Helper: quantity sizing under the full-pass environment. -/
lemma quantity_envFullPass :
    calculate_trade_quantity (ratToU64 100000000) 100000 1e-2 5
      ((20:ℕ):ℚ) (some 30) sampleMarket = .ok (400/3) := by
  norm_num [calculate_trade_quantity, sampleMarket, ratToU64,
    show (⌊(100000000:ℚ)⌋:ℤ) = 100000000 from by
      rw [Int.floor_eq_iff]; norm_num,
    show Int.toNat 100000000 = 100000000 from rfl, min_def, max_def]

/-- Helper: stop/target computation under the full-pass environment. -/
lemma stoploss_envFullPass :
    calculate_stoploss_takeprofit 100000 30 ((20:ℕ):ℚ)
      (decide True) 0.8 0.75 = .ok (100480, 99550) := by
  norm_num [calculate_stoploss_takeprofit]

/-- Helper: margin and liquidation parameters under the full-pass
environment. -/
lemma tradeParams_envFullPass :
    calculate_trade_params "b" 100000 20 ((133:ℕ):ℚ) sampleMarket =
      .ok ⟨6650, 2000000/21, 133, 272⟩ := by
  norm_num [calculate_trade_params, sampleMarket, ratToU64, List.find?,
    show (⌊(133:ℚ)/2000000 * 100000000⌋:ℤ) = 6650 from by
      rw [Int.floor_eq_iff]; norm_num,
    show (⌊(5453:ℚ)/2000000000 * 100000000⌋:ℤ) = 272 from by
      rw [Int.floor_eq_iff]; norm_num]

/-- Helper: the full-pass environment produces a trade. -/
lemma createTrade_envFullPass :
    create_trade_from_signal envFullPass = .ok .TradeCreated := by
  simp only [create_trade_from_signal, envFullPass, envHold, entryAndType,
    Option.getD, show sampleMarket.limits.count.max = 5 from rfl,
    quantity_envFullPass, ratToU64_400_3, stoploss_envFullPass,
    tradeParams_envFullPass]
  norm_num

/-- C2 (amended): the source evaluates the gate in the order — active-trades
fetch (failure is a structured no-trade), open-position count against the
market maximum, then signal directionality (Hold and Undefined exit with a
structured reason), and sizing, which can surface an error (for example a
missing ATR), so gate evaluation is not error-free; the count check precedes
the signal check, and the gap check lives upstream in `process_signals`. -/
theorem gate_source_order (env : GateEnv) :
    (∀ e, env.activeTrades = .error e →
      create_trade_from_signal env =
        .ok (.NoTradeCreated ("Error fetching active trades: " ++ e))) ∧
    (∀ n, env.activeTrades = .ok n → env.market.limits.count.max ≤ n →
      create_trade_from_signal env =
        .ok (.NoTradeCreated "Trade limit reached")) ∧
    (∀ n b ask bid, env.activeTrades = .ok n →
      n < env.market.limits.count.max →
      env.balance = .ok b → env.ticker = .ok (ask, bid) →
      (env.signal = .Hold →
        create_trade_from_signal env =
          .ok (.NoTradeCreated "Hold signal received on create_trade")) ∧
      (env.signal = .Undefined →
        create_trade_from_signal env =
          .ok (.NoTradeCreated "No valid trading signal")) ∧
      (env.signal = .Buy → env.atr = none →
        create_trade_from_signal env =
          .error "Error calculating trade quantity: ATR is required for the trade.")) := by
  refine ⟨?_, ?_, ?_⟩
  · intro e he
    simp [create_trade_from_signal, he]
  · intro n hn hle
    simp [create_trade_from_signal, hn, hle]
  · intro n b ask bid hn hlt hb ht
    have hnot : ¬ (n ≥ env.market.limits.count.max) := by omega
    refine ⟨?_, ?_, ?_⟩
    · intro hs
      simp [create_trade_from_signal, hn, hnot, hb, ht, hs, entryAndType]
    · intro hs
      simp [create_trade_from_signal, hn, hnot, hb, ht, hs, entryAndType]
    · intro hs hatr
      simp [create_trade_from_signal, hn, hnot, hb, ht, hs, hatr,
        entryAndType, calculate_trade_quantity]

/-- Witness for the amended C2: with the count limit already reached, the
gate reports the structured count reason. -/
theorem gate_source_order_witness :
    create_trade_from_signal envTradeLimit =
      .ok (.NoTradeCreated "Trade limit reached") :=
  (gate_source_order envTradeLimit).2.1 1 rfl (by decide)

/-- Counterexample to C2: with a Hold signal and the count limit reached, the
claimed order would short-circuit silently at the signal condition, but the
source reports "Trade limit reached" — the count check runs first; moreover
the gate can return an error (missing ATR), contradicting "never returns or
raises an error". -/
theorem gate_claim_order_false :
    create_trade_from_signal envTradeLimit =
      .ok (.NoTradeCreated "Trade limit reached") ∧
    gateClaimOrder .Hold 1 1 true 100000000 6650 = .silentNoAction ∧
    (ClaimGateOutcome.silentNoAction ≠ .rejected "Trade limit reached") ∧
    create_trade_from_signal envAtrMissing =
      .error "Error calculating trade quantity: ATR is required for the trade." := by
  refine ⟨?_, by simp [gateClaimOrder], by simp, ?_⟩
  · simp [create_trade_from_signal, envTradeLimit, envHold, limitMarket]
  · simp [create_trade_from_signal, envAtrMissing, envHold, sampleMarket,
      entryAndType, calculate_trade_quantity]

/-- Counterexample to C3: in a cycle whose gap check passes but whose signal
is Hold (so no trade is created), `last_trade_time` is nevertheless reset
from 0 to the cycle instant 10. -/
theorem last_trade_time_updated_without_trade :
    processStep 5 0 cycHold =
      (10, some (.ok (.NoTradeCreated "Hold signal received on create_trade"))) ∧
    (10 : ℚ) ≠ 0 := by
  constructor
  · have hg : create_trade_from_signal envHold =
        .ok (.NoTradeCreated "Hold signal received on create_trade") := by
      simp [create_trade_from_signal, envHold, sampleMarket, entryAndType]
    norm_num [processStep, cycHold, hg]
  · norm_num

/-- C3 (amended): `last_trade_time` is updated exactly in the cycles whose
gap check passes, before the gate runs and regardless of the gate outcome —
its evolution depends only on the cycle instants, not on signals or gate
results — and it is left unchanged exactly in skipped cycles. -/
theorem last_trade_time_frame :
    (∀ (g : ℕ) (t0 : ℚ) (cs cs2 : List Cycle),
      cs.map Cycle.time = cs2.map Cycle.time →
      lastTimeAfter g t0 cs = lastTimeAfter g t0 cs2) ∧
    (∀ (g : ℕ) (last : ℚ) (c : Cycle),
      (processStep g last c).1 =
        if (g : ℚ) ≤ c.time - last then c.time else last) := by
  constructor
  · intro g t0 cs
    induction cs generalizing t0 with
    | nil =>
      intro cs2 h
      cases cs2 with
      | nil => rfl
      | cons c2 cs2t => simp at h
    | cons c cst ih =>
      intro cs2 h
      cases cs2 with
      | nil => simp at h
      | cons c2 cs2t =>
        simp only [List.map_cons, List.cons.injEq] at h
        obtain ⟨hhead, htail⟩ := h
        have hstep : (processStep g t0 c).1 = (processStep g t0 c2).1 := by
          simp only [processStep, hhead]
          split_ifs <;> rfl
        simp only [lastTimeAfter, List.foldl]
        rw [show List.foldl (fun l c => (processStep g l c).1)
            (processStep g t0 c).1 cst =
            lastTimeAfter g (processStep g t0 c).1 cst from rfl,
          show List.foldl (fun l c => (processStep g l c).1)
            (processStep g t0 c2).1 cs2t =
            lastTimeAfter g (processStep g t0 c2).1 cs2t from rfl,
          hstep]
        exact ih _ cs2t htail
  · intro g last c
    simp only [processStep, ge_iff_le]
    split_ifs <;> rfl

/-- Witness for the amended C3: replacing the gate environment of a cycle
while keeping its instant leaves the timestamp evolution unchanged. -/
theorem last_trade_time_frame_witness :
    lastTimeAfter 5 0 [⟨10, envHold⟩] = lastTimeAfter 5 0 [⟨10, envFullPass⟩] :=
  last_trade_time_frame.1 5 0 _ _ (by simp)

/-- Helper: unfolding one step of the state before cycle `n + 1`. -/
lemma stateAt_succ (g : ℕ) (t0 : ℚ) (cs : List Cycle) (n : ℕ)
    (hn : n < cs.length) :
    stateAt g t0 cs (n+1) =
      (processStep g (stateAt g t0 cs n) (cs.get ⟨n, hn⟩)).1 := by
  have htake : cs.take (n+1) = cs.take n ++ [cs.get ⟨n, hn⟩] := by
    rw [List.take_succ, List.getElem?_eq_getElem hn]
    simp
  unfold stateAt lastTimeAfter
  rw [htake, List.foldl_append]
  rfl

/-- Helper: the stored timestamp never decreases from one cycle to the
next. -/
lemma stateAt_mono_succ (g : ℕ) (t0 : ℚ) (cs : List Cycle) (n : ℕ) :
    stateAt g t0 cs n ≤ stateAt g t0 cs (n+1) := by
  by_cases hn : n < cs.length
  · rw [stateAt_succ g t0 cs n hn]
    unfold processStep
    split_ifs with h
    · have hg : (0 : ℚ) ≤ ((g : ℕ) : ℚ) := Nat.cast_nonneg g
      linarith
    · exact le_refl _
  · have h1 : cs.take n = cs := List.take_of_length_le (by omega)
    have h2 : cs.take (n+1) = cs := List.take_of_length_le (by omega)
    unfold stateAt
    rw [h1, h2]

/-- Helper: the stored timestamp is monotone along the trace. -/
lemma stateAt_mono (g : ℕ) (t0 : ℚ) (cs : List Cycle) :
    ∀ m n : ℕ, m ≤ n → stateAt g t0 cs m ≤ stateAt g t0 cs n := by
  intro m n h
  induction n with
  | zero =>
    have : m = 0 := Nat.le_zero.mp h
    subst this
    exact le_refl _
  | succ k ih =>
    rcases eq_or_lt_of_le h with heq | hlt
    · subst heq
      exact le_refl _
    · exact le_trans (ih (Nat.lt_succ_iff.mp hlt)) (stateAt_mono_succ g t0 cs k)

/-- Helper: the output of cycle `n` is the step output taken from the state
before cycle `n`. -/
lemma processOutputs_getD (g : ℕ) (cs : List Cycle) :
    ∀ (t0 : ℚ) (n : ℕ) (hn : n < cs.length),
    (processOutputs g t0 cs).getD n none =
      (processStep g (stateAt g t0 cs n) (cs.get ⟨n, hn⟩)).2 := by
  induction cs with
  | nil => intro t0 n hn; simp at hn
  | cons c cst ih =>
    intro t0 n hn
    match n with
    | 0 =>
      simp [processOutputs, stateAt, lastTimeAfter]
    | Nat.succ k =>
      have hk : k < cst.length := by simpa using hn
      simp only [processOutputs, List.getD_cons_succ]
      rw [ih ((processStep g t0 c).1) k hk]
      have hst : stateAt g t0 (c :: cst) (k+1) =
          stateAt g ((processStep g t0 c).1) cst k := by
        simp [stateAt, lastTimeAfter, List.take_succ_cons]
      rw [hst]
      rfl

/-- Helper: a gate invocation in a cycle means the gap condition passed, and
the invoked gate call is on that cycle. -/
lemma processStep_snd_some (g : ℕ) (last : ℚ) (c : Cycle)
    (r : Except String CreateTradeResult)
    (h : (processStep g last c).2 = some r) :
    c.time - last ≥ ((g : ℕ) : ℚ) ∧ r = create_trade_from_signal c.env := by
  unfold processStep at h
  by_cases hc : c.time - last ≥ ((g : ℕ) : ℚ)
  · rw [if_pos hc] at h
    exact ⟨hc, (Option.some.inj h).symm⟩
  · rw [if_neg hc] at h
    exact absurd h (by simp)

/-- Helper: when the gap condition passes, the timestamp is reset to the
cycle instant. -/
lemma processStep_fst_of_pass (g : ℕ) (last : ℚ) (c : Cycle)
    (h : c.time - last ≥ ((g : ℕ) : ℚ)) :
    (processStep g last c).1 = c.time := by
  unfold processStep
  rw [if_pos h]

/-- Helper: a created trade implies the running-trade count was fetched and
was below the market maximum. -/
lemma created_implies_count (env : GateEnv)
    (h : create_trade_from_signal env = .ok .TradeCreated) :
    ∃ n, env.activeTrades = .ok n ∧ n < env.market.limits.count.max := by
  cases ha : env.activeTrades with
  | error e => simp [create_trade_from_signal, ha] at h
  | ok n =>
    by_cases hn : env.market.limits.count.max ≤ n
    · simp [create_trade_from_signal, ha, hn] at h
    · exact ⟨n, rfl, by omega⟩

/-- C4: along any trace of the signal-processing loop, two cycles whose gate
is invoked (in particular two cycles that create trades) are at least the
configured gap apart, and a created trade implies the fetched count of
running trades was below the market maximum. -/
theorem trade_gap_and_count_enforced (g : ℕ) (t0 : ℚ) (cs : List Cycle)
    (i j : ℕ) (hi : i < cs.length) (hj : j < cs.length) (hij : i < j)
    (ri rj : Except String CreateTradeResult)
    (hri : (processOutputs g t0 cs).getD i none = some ri)
    (hrj : (processOutputs g t0 cs).getD j none = some rj) :
    ((g : ℕ) : ℚ) ≤ (cs.get ⟨j, hj⟩).time - (cs.get ⟨i, hi⟩).time ∧
    (rj = .ok .TradeCreated →
      ∃ n, (cs.get ⟨j, hj⟩).env.activeTrades = .ok n ∧
        n < (cs.get ⟨j, hj⟩).env.market.limits.count.max) := by
  rw [processOutputs_getD g cs t0 i hi] at hri
  rw [processOutputs_getD g cs t0 j hj] at hrj
  obtain ⟨hci, hri2⟩ := processStep_snd_some _ _ _ _ hri
  obtain ⟨hcj, hrj2⟩ := processStep_snd_some _ _ _ _ hrj
  constructor
  · have h1 : stateAt g t0 cs (i+1) = (cs.get ⟨i, hi⟩).time := by
      rw [stateAt_succ g t0 cs i hi]
      exact processStep_fst_of_pass _ _ _ hci
    have h2 : stateAt g t0 cs (i+1) ≤ stateAt g t0 cs j :=
      stateAt_mono g t0 cs (i+1) j (by omega)
    rw [h1] at h2
    have := ge_iff_le.mp hcj
    linarith
  · intro hcreated
    exact created_implies_count _ (hrj2.symm.trans hcreated)

/-- Helper: the two-cycle full-pass trace creates a trade in both cycles. -/
lemma processOutputs_csFullPass :
    processOutputs 5 0 csFullPass =
      [some (.ok .TradeCreated), some (.ok .TradeCreated)] := by
  norm_num [processOutputs, processStep, csFullPass, createTrade_envFullPass]

/-- Witness for C4 on the two-cycle full-pass trace. -/
theorem trade_gap_and_count_enforced_witness :
    ((5 : ℕ) : ℚ) ≤ (csFullPass.get ⟨1, by decide⟩).time -
      (csFullPass.get ⟨0, by decide⟩).time ∧
    ((.ok .TradeCreated : Except String CreateTradeResult) =
        .ok .TradeCreated →
      ∃ n, (csFullPass.get ⟨1, by decide⟩).env.activeTrades = .ok n ∧
        n < (csFullPass.get ⟨1, by decide⟩).env.market.limits.count.max) :=
  trade_gap_and_count_enforced 5 0 csFullPass 0 1 (by decide) (by decide)
    (by decide) (.ok .TradeCreated) (.ok .TradeCreated)
    (by rw [processOutputs_csFullPass]; rfl)
    (by rw [processOutputs_csFullPass]; rfl)

end TradingBot
